import Mathlib

/-!
Verification of the configuration service of wiki-js
(src/server/core/config.js and its near-duplicate unnamed variant).

The service manipulates untyped JSON/YAML-like documents (lodash deep
merges, dotted-path reads, store rows) and a typed db-connection section.
Both are embedded below, faithfully to the JavaScript source; the store
and the event channel are external collaborators and appear as explicit
inputs/outputs.
-/

set_option autoImplicit false

/-- JSON-like documents: the raw configuration material (parsed YAML
documents, store rows, snapshot values) manipulated by the service.
Mappings are association lists of string keys in insertion order, as in
JavaScript objects. -/
inductive Json where
  | null : Json
  | bool : Bool → Json
  | num : Int → Json
  | str : String → Json
  | obj : List (String × Json) → Json

/-- First value bound to key `k` in an object's field list (JavaScript
property lookup; JS objects cannot hold a key twice). -/
def lookupField (fs : List (String × Json)) (k : String) : Option Json :=
  match fs with
  | [] => none
  | (k', v) :: rest => if k' = k then some v else lookupField rest k

/-- JavaScript property assignment `o[k] = v`: replaces the binding in
place if the key exists, otherwise appends it. -/
def setField (fs : List (String × Json)) (k : String) (v : Json) :
    List (String × Json) :=
  match fs with
  | [] => [(k, v)]
  | (k', v') :: rest =>
      if k' = k then (k, v) :: rest else (k', v') :: setField rest k v

mutual
/-- Lodash `_.defaultsDeep(dst, src)` as used by `init` (base config over
static defaults) and `loadFromDb` (store document over current snapshot):
keys of `dst` win, except that when both values are mappings they are
merged recursively; keys only in `src` are appended in `src` order. -/
def defaultsDeep : Json → Json → Json
  | Json.obj dfs, Json.obj sfs =>
      Json.obj (mergeDst dfs sfs ++
        sfs.filter (fun q => (lookupField dfs q.1).isNone))
  | d, _ => d
termination_by d _ => sizeOf d

/-- One pass over the destination fields of a deep merge, recursing where
the source also holds a mapping at the same key. -/
def mergeDst : List (String × Json) → List (String × Json) →
    List (String × Json)
  | [], _ => []
  | (k, dv) :: rest, sfs =>
      (match lookupField sfs k with
       | some sv => (k, defaultsDeep dv sv)
       | none => (k, dv)) :: mergeDst rest sfs
termination_by dfs _ => sizeOf dfs
end

mutual
/-- Well-formedness of a document as a JavaScript value: no object holds
the same key twice (JS objects cannot). -/
def Json.wf : Json → Bool
  | Json.obj fs => fieldsWf fs
  | _ => true
termination_by j => sizeOf j

/-- Field lists with pairwise-distinct keys and well-formed values. -/
def fieldsWf : List (String × Json) → Bool
  | [] => true
  | (k, v) :: rest => (lookupField rest k).isNone && Json.wf v && fieldsWf rest
termination_by fs => sizeOf fs
end

/-- Top-level property read `doc[k]` on a document. -/
def Json.get : Json → String → Option Json
  | Json.obj fs, k => lookupField fs k
  | _, _ => none

/-- JavaScript truthiness of a document value. -/
def jsTruthy : Json → Bool
  | Json.null => false
  | Json.bool b => b
  | Json.num n => n != 0
  | Json.str s => s != ""
  | Json.obj _ => true

/-- Lodash `_.isPlainObject`: true exactly for mappings. -/
def Json.isPlainObject : Json → Bool
  | Json.obj _ => true
  | _ => false

/-- Mapping test used to phrase the deep-merge precedence rule. -/
def Json.isObj : Json → Bool
  | Json.obj _ => true
  | _ => false

/-- JavaScript top-level property assignment `doc.k = v` on a document
(used for `WIKI.config.setup = true`). -/
def Json.set : Json → String → Json → Json
  | Json.obj fs, k, v => Json.obj (setField fs k v)
  | j, _, _ => j

/-- Embedding of `loadFromDb`: `conf` is what the external store's
`getConfig()` returned (`none` when it yielded nothing). When `conf` is
truthy the snapshot becomes `_.defaultsDeep(conf, WIKI.config)`;
otherwise the setup flag is set true on the snapshot. -/
def loadFromDb (conf : Option Json) (config : Json) : Json :=
  match conf with
  | some c =>
      if jsTruthy c then defaultsDeep c config
      else config.set "setup" (Json.bool true)
  | none => config.set "setup" (Json.bool true)

/-- Characters of a dotted key split at the dots. -/
def splitPathAux : List Char → List (List Char)
  | [] => [[]]
  | c :: rest =>
      let r := splitPathAux rest
      if c = '.' then [] :: r
      else
        match r with
        | [] => [[c]]
        | w :: ws => (c :: w) :: ws

/-- Dotted key path, as lodash `_.get` interprets the keys handed to
`saveToDb` (e.g. `db.host` names the host field of the db section; the
keys used contain no brackets or quotes). -/
def splitPath (key : String) : List String :=
  (splitPathAux key.data).map (fun cs => String.mk cs)

/-- Walk a document along a key path. -/
def getAtPath : Json → List String → Option Json
  | j, [] => some j
  | Json.obj fs, p :: rest =>
      match lookupField fs p with
      | some v => getAtPath v rest
      | none => none
  | _, _ :: _ => none

/-- Lodash `_.get(config, key, null)`: dotted-path read defaulting to
null, exactly as `saveToDb` reads the snapshot. -/
def lodashGet (config : Json) (key : String) : Json :=
  (getAtPath config (splitPath key)).getD Json.null

/-- The value saveToDb persists for a snapshot value: plain mappings are
stored as-is, anything else is wrapped as a record under key v. -/
def wrapValue (value : Json) : Json :=
  if value.isPlainObject then value else Json.obj [("v", value)]

/-- One store write of `saveToDb`: `patch({value}).where('key', key)`
updates the matching row; when no row matched (`affectedRows === 0`) and
the value is truthy, `insert({key, value})` adds one. The store rows are
an association list from keys to persisted values. -/
def upsertRow (st : List (String × Json)) (k : String) (v : Json) :
    List (String × Json) :=
  if (lookupField st k).isSome then setField st k v
  else if jsTruthy v then st ++ [(k, v)] else st

/-- The `for (let key of keys)` loop of `saveToDb` inside its try block:
`failsAt k` says whether the external store raises on writing key `k`
(a thrown error aborts the remaining iterations and is caught outside
the loop). Returns (no error was thrown, resulting store rows). -/
def saveKeysLoop (config : Json) (failsAt : String → Bool) :
    List String → List (String × Json) → Bool × List (String × Json)
  | [], st => (true, st)
  | k :: rest, st =>
      if failsAt k then (false, st)
      else saveKeysLoop config failsAt rest
        (upsertRow st k (wrapValue (lodashGet config k)))

/-- Observable outcome of a `saveToDb` call: its boolean return value,
the final store rows, and the events emitted on the outbound channel. -/
structure SaveOutcome where
  result : Bool
  store : List (String × Json)
  events : List String

/-- Embedding of `saveToDb(keys, propagate)`: runs the key loop; on
success emits reloadConfig when `propagate` is set and returns true; a
caught store error yields false and no event. -/
def saveToDb (config : Json) (failsAt : String → Bool) (keys : List String)
    (propagate : Bool) (st : List (String × Json)) : SaveOutcome :=
  match saveKeysLoop config failsAt keys st with
  | (true, st') =>
      { result := true, store := st',
        events := if propagate then ["reloadConfig"] else [] }
  | (false, st') => { result := false, store := st', events := [] }

/-- Store rows after writing every key of `ks` in order with no error
(the rows a fully successful saveToDb loop leaves behind). -/
def writeAll (config : Json) (st : List (String × Json))
    (ks : List String) : List (String × Json) :=
  ks.foldl (fun s j => upsertRow s j (wrapValue (lodashGet config j))) st

/-- The db section of the configuration snapshot read and mutated by the
DATABASE_URL logic. -/
structure DbConfig where
  type : String
  host : String
  port : Int
  user : String
  pass : String
  db : String
  storage : String
  ssl : Bool
deriving DecidableEq

/-- Components of `new url.URL(DATABASE_URL)` that the config service
reads (the URL parser itself is the node standard library, an external
collaborator). `search` is the query-parameter list backing
`URLSearchParams`; string components are empty when absent, as in the
WHATWG URL class. -/
structure ParsedUrl where
  protocol : String
  hostname : String
  port : String
  username : String
  password : String
  pathname : String
  search : List (String × String)
deriving DecidableEq

/-- `URLSearchParams` lookup: `get` returns the first value bound to the
name, `has` is its success. -/
def getParam (ps : List (String × String)) (name : String) : Option String :=
  match ps with
  | [] => none
  | (n, v) :: rest => if n = name then some v else getParam rest name

/-- JavaScript `parseInt(s, 10)` on a URL port component (the URL class
guarantees the component is empty or decimal digits). -/
def parseIntBase10 (s : String) : Int :=
  (s.toNat?.getD 0 : Nat)

/-- The switch on `dbUrl.protocol` in applyDatabaseUrlEnv: the database
type each recognized scheme selects; `none` is the default branch. -/
def schemeType (protocol : String) : Option String :=
  if protocol = "postgres:" then some "postgres"
  else if protocol = "postgresql:" then some "postgres"
  else if protocol = "mysql:" then some "mysql"
  else if protocol = "mariadb:" then some "mariadb"
  else if protocol = "mssql:" then some "mssql"
  else if protocol = "sqlserver:" then some "mssql"
  else if protocol = "sqlite:" then some "sqlite"
  else none

/-- `applyDatabaseUrlEnv(appconfig, DATABASE_URL)` from config.js on an
already-parsed URL: returns (applied?, updated db section). An
unrecognized scheme warns and returns false before touching the config;
sqlite takes only the storage path; other types take host, port, user,
password and database name when present; an sslmode query parameter sets
the ssl flag to `value !== 'disable'`. -/
def applyDatabaseUrlEnv (cfg : DbConfig) (u : ParsedUrl) : Bool × DbConfig :=
  match schemeType u.protocol with
  | none => (false, cfg)
  | some t =>
      let c1 := { cfg with type := t }
      let c2 :=
        if c1.type = "sqlite" then
          if u.pathname ≠ "" then { c1 with storage := u.pathname } else c1
        else
          let ch := if u.hostname ≠ "" then { c1 with host := u.hostname }
            else c1
          let cp := if u.port ≠ "" then
            { ch with port := parseIntBase10 u.port } else ch
          let cu := if u.username ≠ "" then { cp with user := u.username }
            else cp
          let cw := if u.password ≠ "" then { cu with pass := u.password }
            else cu
          if u.pathname ≠ "" ∧ u.pathname.length > 1 then
            { cw with db := u.pathname.drop 1 }
          else cw
      match getParam u.search "sslmode" with
      | some m => (true, { c2 with ssl := m != "disable" })
      | none => (true, c2)

/-- The inline DATABASE_URL block of the unnamed variant's `init`: only
the postgres schemes select a type, and every later step runs for every
scheme (no default branch, no sqlite special case). -/
def applyDatabaseUrlInline (cfg : DbConfig) (u : ParsedUrl) : DbConfig :=
  let c1 := if u.protocol = "postgres:" ∨ u.protocol = "postgresql:" then
    { cfg with type := "postgres" } else cfg
  let c2 := if u.hostname ≠ "" then { c1 with host := u.hostname } else c1
  let c3 := if u.port ≠ "" then { c2 with port := parseIntBase10 u.port }
    else c2
  let c4 := if u.username ≠ "" then { c3 with user := u.username } else c3
  let c5 := if u.password ≠ "" then { c4 with pass := u.password } else c4
  let c6 := if u.pathname ≠ "" ∧ u.pathname.length > 1 then
    { c5 with db := u.pathname.drop 1 } else c5
  match getParam u.search "sslmode" with
  | some m => { c6 with ssl := m != "disable" }
  | none => c6

/-- The reloadConfig handler registered by `subscribeToEvents`: it awaits
`loadFromDb`, then `applyFlags`, with no try/catch around either. The
two steps touch the store and the knex handle, so their outcomes are
inputs here; the handler returns the ordered list of steps it ran and
its own outcome (ok, or the rejection it propagates). -/
def reloadHandler (loadRes applyRes : Except String Unit) :
    List String × Except String Unit :=
  match loadRes with
  | Except.error e => (["loadFromDb"], Except.error e)
  | Except.ok _ =>
      match applyRes with
      | Except.error e => (["loadFromDb", "applyFlags"], Except.error e)
      | Except.ok _ => (["loadFromDb", "applyFlags"], Except.ok ())

theorem lookupField_append_of_some (A B : List (String × Json)) (k : String)
    (v : Json) (h : lookupField A k = some v) :
    lookupField (A ++ B) k = some v := by
  induction A with
  | nil => simp [lookupField] at h
  | cons p rest ih =>
    obtain ⟨k', v'⟩ := p
    by_cases hk : k' = k
    · simp [lookupField, hk] at h ⊢
      exact h
    · simp [lookupField, hk] at h ⊢
      exact ih h

theorem lookupField_append_of_none (A B : List (String × Json)) (k : String)
    (h : lookupField A k = none) :
    lookupField (A ++ B) k = lookupField B k := by
  induction A with
  | nil => simp
  | cons p rest ih =>
    obtain ⟨k', v'⟩ := p
    by_cases hk : k' = k
    · simp [lookupField, hk] at h
    · simp [lookupField, hk] at h ⊢
      exact ih h

theorem lookupField_isSome_of_mem (fs : List (String × Json)) (k : String)
    (v : Json) (h : (k, v) ∈ fs) : (lookupField fs k).isSome = true := by
  induction fs with
  | nil => simp at h
  | cons p rest ih =>
    obtain ⟨k', v'⟩ := p
    by_cases hk : k' = k
    · simp [lookupField, hk]
    · simp [lookupField, hk]
      rcases List.mem_cons.mp h with h1 | h1
      · rw [Prod.mk.injEq] at h1
        exact absurd h1.1.symm hk
      · exact ih h1

theorem mem_keys_of_lookupField (fs : List (String × Json)) (k : String)
    (h : (lookupField fs k).isSome = true) : k ∈ fs.map Prod.fst := by
  induction fs with
  | nil => simp [lookupField] at h
  | cons p rest ih =>
    obtain ⟨k', v'⟩ := p
    by_cases hk : k' = k
    · simp [hk]
    · simp [lookupField, hk] at h
      simp [ih h]

theorem mergeDst_eq_map (dfs sfs : List (String × Json)) :
    mergeDst dfs sfs = dfs.map (fun p =>
      match lookupField sfs p.1 with
      | some sv => (p.1, defaultsDeep p.2 sv)
      | none => p) := by
  induction dfs with
  | nil => simp [mergeDst]
  | cons p rest ih =>
    obtain ⟨k, dv⟩ := p
    simp only [mergeDst, ih, List.map_cons]

theorem keys_mergeDst (dfs sfs : List (String × Json)) :
    (mergeDst dfs sfs).map Prod.fst = dfs.map Prod.fst := by
  rw [mergeDst_eq_map, List.map_map]
  apply List.map_congr_left
  intro p _
  cases h : lookupField sfs p.1 <;> simp [h]

theorem lookupField_mergeDst (dfs sfs : List (String × Json)) (k : String) :
    lookupField (mergeDst dfs sfs) k = (lookupField dfs k).map (fun dv =>
      match lookupField sfs k with
      | some sv => defaultsDeep dv sv
      | none => dv) := by
  induction dfs with
  | nil => simp [mergeDst, lookupField]
  | cons p rest ih =>
    obtain ⟨k', dv⟩ := p
    by_cases hk : k' = k
    · subst hk
      cases h : lookupField sfs k' <;>
        simp [mergeDst, lookupField, h]
    · cases h : lookupField sfs k' <;>
        simp [mergeDst, lookupField, h, hk, ih]

theorem lookupField_filter_of_none (dfs sfs : List (String × Json))
    (k : String) (h : lookupField dfs k = none) :
    lookupField (sfs.filter (fun q => (lookupField dfs q.1).isNone)) k =
      lookupField sfs k := by
  induction sfs with
  | nil => simp
  | cons q rest ih =>
    obtain ⟨k', v'⟩ := q
    by_cases hk : k' = k
    · subst hk
      simp [List.filter_cons, h, lookupField]
    · by_cases hq : (lookupField dfs k').isNone
      · simp [List.filter_cons, hq, lookupField, hk, ih]
      · simp [List.filter_cons, hq, lookupField, hk, ih]

theorem lookupField_of_mem_wf (fs : List (String × Json)) (k : String)
    (v : Json) (hwf : fieldsWf fs = true) (h : (k, v) ∈ fs) :
    lookupField fs k = some v := by
  induction fs with
  | nil => simp at h
  | cons p rest ih =>
    obtain ⟨k', v'⟩ := p
    simp only [fieldsWf, Bool.and_eq_true] at hwf
    rcases List.mem_cons.mp h with h1 | h1
    · rw [Prod.mk.injEq] at h1
      simp [lookupField, h1.1.symm, h1.2]
    · by_cases hk : k' = k
      · subst hk
        have := lookupField_isSome_of_mem rest k' v h1
        rw [Option.isNone_iff_eq_none] at hwf
        rw [hwf.1.1] at this
        simp at this
      · simp [lookupField, hk]
        exact ih hwf.2 h1

theorem wf_of_mem_fieldsWf (fs : List (String × Json)) (k : String)
    (v : Json) (hwf : fieldsWf fs = true) (h : (k, v) ∈ fs) :
    v.wf = true := by
  induction fs with
  | nil => simp at h
  | cons p rest ih =>
    obtain ⟨k', v'⟩ := p
    simp only [fieldsWf, Bool.and_eq_true] at hwf
    rcases List.mem_cons.mp h with h1 | h1
    · rw [Prod.mk.injEq] at h1
      exact h1.2 ▸ hwf.1.2
    · exact ih hwf.2 h1

theorem defaultsDeep_self : (a : Json) → a.wf = true → defaultsDeep a a = a
  | Json.null, _ => by simp [defaultsDeep]
  | Json.bool _, _ => by simp [defaultsDeep]
  | Json.num _, _ => by simp [defaultsDeep]
  | Json.str _, _ => by simp [defaultsDeep]
  | Json.obj fs, ha => by
      simp only [Json.wf] at ha
      have hfil : fs.filter (fun q => (lookupField fs q.1).isNone) = [] := by
        rw [List.filter_eq_nil_iff]
        intro q hq
        obtain ⟨k, v⟩ := q
        have h2 := lookupField_isSome_of_mem fs k v hq
        simp [Option.isNone]
        rw [Option.isSome_iff_exists] at h2
        obtain ⟨w, hw⟩ := h2
        simp [hw]
      have hmer : mergeDst fs fs = fs := by
        rw [mergeDst_eq_map]
        conv_rhs => rw [← List.map_id fs]
        apply List.map_congr_left
        intro p hp
        obtain ⟨k, dv⟩ := p
        rw [lookupField_of_mem_wf fs k dv ha hp]
        have hdv := wf_of_mem_fieldsWf fs k dv ha hp
        have hrec := defaultsDeep_self dv hdv
        simp [hrec, id]
      simp [defaultsDeep, hmer, hfil]
termination_by a => sizeOf a
decreasing_by
  simp_wf
  have h := List.sizeOf_lt_of_mem hp
  simp at h
  omega

theorem lookupField_isSome_of_mem_keys (fs : List (String × Json)) (k : String)
    (h : k ∈ fs.map Prod.fst) : (lookupField fs k).isSome = true := by
  rw [List.mem_map] at h
  obtain ⟨p, hp, hk⟩ := h
  exact hk ▸ lookupField_isSome_of_mem fs p.1 p.2 hp

theorem mergeDst_congr (l s₁ s₂ : List (String × Json))
    (h : ∀ p ∈ l,
      (match lookupField s₁ p.1 with
       | some sv => (p.1, defaultsDeep p.2 sv)
       | none => p) =
      (match lookupField s₂ p.1 with
       | some sv => (p.1, defaultsDeep p.2 sv)
       | none => p)) :
    mergeDst l s₁ = mergeDst l s₂ := by
  rw [mergeDst_eq_map, mergeDst_eq_map]
  exact List.map_congr_left h

theorem defaultsDeep_idem : (a b : Json) → a.wf = true →
    defaultsDeep a (defaultsDeep a b) = defaultsDeep a b
  | Json.null, _, _ => by simp [defaultsDeep]
  | Json.bool _, _, _ => by simp [defaultsDeep]
  | Json.num _, _, _ => by simp [defaultsDeep]
  | Json.str _, _, _ => by simp [defaultsDeep]
  | Json.obj afs, Json.null, ha => by
      rw [show defaultsDeep (Json.obj afs) Json.null = Json.obj afs from by
        simp [defaultsDeep]]
      exact defaultsDeep_self (Json.obj afs) ha
  | Json.obj afs, Json.bool b, ha => by
      rw [show defaultsDeep (Json.obj afs) (Json.bool b) = Json.obj afs from by
        simp [defaultsDeep]]
      exact defaultsDeep_self (Json.obj afs) ha
  | Json.obj afs, Json.num n, ha => by
      rw [show defaultsDeep (Json.obj afs) (Json.num n) = Json.obj afs from by
        simp [defaultsDeep]]
      exact defaultsDeep_self (Json.obj afs) ha
  | Json.obj afs, Json.str s, ha => by
      rw [show defaultsDeep (Json.obj afs) (Json.str s) = Json.obj afs from by
        simp [defaultsDeep]]
      exact defaultsDeep_self (Json.obj afs) ha
  | Json.obj afs, Json.obj bfs, ha => by
      simp only [Json.wf] at ha
      rw [show defaultsDeep (Json.obj afs) (Json.obj bfs) =
          Json.obj (mergeDst afs bfs ++
            bfs.filter (fun q => (lookupField afs q.1).isNone)) from by
        simp [defaultsDeep]]
      rw [show defaultsDeep (Json.obj afs)
            (Json.obj (mergeDst afs bfs ++
              bfs.filter (fun q => (lookupField afs q.1).isNone))) =
          Json.obj (mergeDst afs (mergeDst afs bfs ++
              bfs.filter (fun q => (lookupField afs q.1).isNone)) ++
            (mergeDst afs bfs ++
              bfs.filter (fun q => (lookupField afs q.1).isNone)).filter
              (fun q => (lookupField afs q.1).isNone)) from by
        simp [defaultsDeep]]
      congr 1
      have h1 : (mergeDst afs bfs).filter
          (fun q => (lookupField afs q.1).isNone) = [] := by
        rw [List.filter_eq_nil_iff]
        intro q hq
        have hkey : q.1 ∈ afs.map Prod.fst := by
          have h3 : q.1 ∈ (mergeDst afs bfs).map Prod.fst :=
            List.mem_map_of_mem Prod.fst hq
          rwa [keys_mergeDst] at h3
        have h4 := lookupField_isSome_of_mem_keys afs q.1 hkey
        simp [Option.isNone]
        rw [Option.isSome_iff_exists] at h4
        obtain ⟨w, hw⟩ := h4
        simp [hw]
      have h2 : (bfs.filter (fun q => (lookupField afs q.1).isNone)).filter
          (fun q => (lookupField afs q.1).isNone) =
          bfs.filter (fun q => (lookupField afs q.1).isNone) := by
        rw [List.filter_filter]
        simp
      have hB : mergeDst afs (mergeDst afs bfs ++
          bfs.filter (fun q => (lookupField afs q.1).isNone)) =
          mergeDst afs bfs := by
        apply mergeDst_congr
        intro p hp
        obtain ⟨k, dv⟩ := p
        have hdk : lookupField afs k = some dv :=
          lookupField_of_mem_wf afs k dv ha hp
        have hdv := wf_of_mem_fieldsWf afs k dv ha hp
        have hM : lookupField (mergeDst afs bfs ++
            bfs.filter (fun q => (lookupField afs q.1).isNone)) k =
            some (match lookupField bfs k with
                  | some sv => defaultsDeep dv sv
                  | none => dv) := by
          apply lookupField_append_of_some
          rw [lookupField_mergeDst, hdk]
          simp
        simp only [hM]
        cases hbk : lookupField bfs k with
        | some sv =>
            have hrec := defaultsDeep_idem dv sv hdv
            simp [hbk, hrec]
        | none =>
            have hself := defaultsDeep_self dv hdv
            simp [hbk, hself]
      rw [List.filter_append, h1, h2, hB]
      simp
termination_by a _ _ => sizeOf a
decreasing_by
  simp_wf
  have h := List.sizeOf_lt_of_mem hp
  simp at h
  omega

/-- Claim C2: for every snapshot and every parsed DATABASE_URL whose
scheme is none of the recognized database schemes, applyDatabaseUrlEnv
returns false (not applied, non-fatal) and leaves every db field of the
snapshot unchanged. -/
theorem applyDatabaseUrlEnv_unknown_scheme (cfg : DbConfig) (u : ParsedUrl)
    (h : u.protocol ∉ ["postgres:", "postgresql:", "mysql:", "mariadb:",
      "mssql:", "sqlserver:", "sqlite:"]) :
    applyDatabaseUrlEnv cfg u = (false, cfg) := by
  simp only [List.mem_cons, List.mem_singleton, not_or] at h
  obtain ⟨h1, h2, h3, h4, h5, h6, h7⟩ := h
  simp [applyDatabaseUrlEnv, schemeType, h1, h2, h3, h4, h5, h6, h7]

/-- Claim C2, witness: a redis scheme URL is not applied and the db
section is returned untouched. -/
theorem applyDatabaseUrlEnv_unknown_scheme_witness :
    applyDatabaseUrlEnv ⟨"mysql", "h0", 3306, "u0", "p0", "d0", "s0", false⟩
      ⟨"redis:", "host", "6379", "", "", "", []⟩ =
    (false, ⟨"mysql", "h0", 3306, "u0", "p0", "d0", "s0", false⟩) :=
  applyDatabaseUrlEnv_unknown_scheme _ _ (by decide)

/-- Claim C7: for every snapshot and parsed URL with a recognized
scheme, an sslmode query parameter sets db.ssl to true exactly when its
value is not disable, and db.ssl keeps its prior value when the
parameter is absent. -/
theorem applyDatabaseUrlEnv_sslmode (cfg : DbConfig) (u : ParsedUrl)
    (t : String) (h : schemeType u.protocol = some t) :
    (∀ m, getParam u.search "sslmode" = some m →
      ((applyDatabaseUrlEnv cfg u).2).ssl = (m != "disable")) ∧
    (getParam u.search "sslmode" = none →
      ((applyDatabaseUrlEnv cfg u).2).ssl = cfg.ssl) := by
  constructor
  · intro m hm
    simp [applyDatabaseUrlEnv, h, hm]
  · intro hm
    simp only [applyDatabaseUrlEnv, h, hm]
    split_ifs <;> simp

/-- Claim C8, amended: for every snapshot and every URL whose scheme
selects the sqlite type, applyDatabaseUrlEnv sets db.type to sqlite,
takes db.storage from the URL path component when it is non-empty, and
additionally sets db.ssl when an sslmode query parameter is present;
db.host, db.port, db.user, db.pass and db.db are left unchanged, and
db.ssl is unchanged when sslmode is absent. -/
theorem applyDatabaseUrlEnv_sqlite (cfg : DbConfig) (u : ParsedUrl)
    (h : u.protocol = "sqlite:") :
    (applyDatabaseUrlEnv cfg u).1 = true ∧
    ((applyDatabaseUrlEnv cfg u).2).host = cfg.host ∧
    ((applyDatabaseUrlEnv cfg u).2).port = cfg.port ∧
    ((applyDatabaseUrlEnv cfg u).2).user = cfg.user ∧
    ((applyDatabaseUrlEnv cfg u).2).pass = cfg.pass ∧
    ((applyDatabaseUrlEnv cfg u).2).db = cfg.db ∧
    ((applyDatabaseUrlEnv cfg u).2).type = "sqlite" ∧
    (u.pathname ≠ "" → ((applyDatabaseUrlEnv cfg u).2).storage = u.pathname) ∧
    (u.pathname = "" → ((applyDatabaseUrlEnv cfg u).2).storage = cfg.storage) ∧
    (getParam u.search "sslmode" = none →
      ((applyDatabaseUrlEnv cfg u).2).ssl = cfg.ssl) ∧
    (∀ m, getParam u.search "sslmode" = some m →
      ((applyDatabaseUrlEnv cfg u).2).ssl = (m != "disable")) := by
  by_cases hpath : u.pathname = "" <;>
    cases hpm : getParam u.search "sslmode" <;>
      simp [applyDatabaseUrlEnv, schemeType, h, hpath, hpm]

/-- Claim C8, counterexample: a sqlite URL carrying sslmode=require
changes db.ssl (false prior, true after), so the claim that only the
storage path changes is false on the code. -/
theorem applyDatabaseUrlEnv_sqlite_ssl_counterexample :
    ((applyDatabaseUrlEnv ⟨"sqlite", "", 0, "", "", "", "/old.db", false⟩
      ⟨"sqlite:", "", "", "", "", "/data/wiki.sqlite",
        [("sslmode", "require")]⟩).2).storage = "/data/wiki.sqlite" ∧
    ((applyDatabaseUrlEnv ⟨"sqlite", "", 0, "", "", "", "/old.db", false⟩
      ⟨"sqlite:", "", "", "", "", "/data/wiki.sqlite",
        [("sslmode", "require")]⟩).2).ssl = true := by decide

/-- Claim C10, counterexample: on a redis scheme URL the config.js
function leaves the snapshot unchanged while the unnamed variant's
inline block overwrites db.host and db.port, so the two variants do not
yield the same db configuration for every URL. -/
theorem variants_disagree_counterexample :
    applyDatabaseUrlInline ⟨"mysql", "h0", 3306, "u0", "p0", "d0", "s0", false⟩
      ⟨"redis:", "host", "6379", "", "", "", []⟩ ≠
    (applyDatabaseUrlEnv ⟨"mysql", "h0", 3306, "u0", "p0", "d0", "s0", false⟩
      ⟨"redis:", "host", "6379", "", "", "", []⟩).2 := by decide

/-- Claim C10, amended: for every starting snapshot and every parsed
DATABASE_URL whose scheme is postgres or postgresql, applyDatabaseUrlEnv
applies the URL (returns true, non-fatal) and produces exactly the db
configuration the unnamed variant's inline block produces. -/
theorem variants_agree_postgres (cfg : DbConfig) (u : ParsedUrl)
    (h : u.protocol = "postgres:" ∨ u.protocol = "postgresql:") :
    (applyDatabaseUrlEnv cfg u).1 = true ∧
    (applyDatabaseUrlEnv cfg u).2 = applyDatabaseUrlInline cfg u := by
  cases hpm : getParam u.search "sslmode" <;>
    rcases h with h | h <;>
      simp [applyDatabaseUrlEnv, applyDatabaseUrlInline, schemeType, h, hpm]

/-- Claim C10, witness: both variants produce the same db section for
a concrete postgres URL with credentials, port, database and sslmode. -/
theorem variants_agree_postgres_witness :
    (applyDatabaseUrlEnv ⟨"mysql", "h0", 3306, "u0", "p0", "d0", "s0", false⟩
      ⟨"postgres:", "db.example.com", "5433", "alice", "secret", "/wiki",
        [("sslmode", "require")]⟩).2 =
    applyDatabaseUrlInline ⟨"mysql", "h0", 3306, "u0", "p0", "d0", "s0", false⟩
      ⟨"postgres:", "db.example.com", "5433", "alice", "secret", "/wiki",
        [("sslmode", "require")]⟩ :=
  (variants_agree_postgres _ _ (Or.inl rfl)).2

/-- Claim C9, counterexample: when loadFromDb raises, the handler's
own outcome is that error (the rejection propagates out of the handler
instead of being caught and logged), and applyFlags is never run. -/
theorem reloadHandler_error_counterexample :
    (reloadHandler (Except.error "store unreachable") (Except.ok ())).2 =
      Except.error "store unreachable" ∧
    (reloadHandler (Except.error "store unreachable") (Except.ok ())).1 =
      ["loadFromDb"] := ⟨rfl, rfl⟩

/-- Claim C9, amended: the reloadConfig handler runs loadFromDb and
then applyFlags in that order (applyFlags only when loadFromDb
succeeded), and an error raised by either step propagates out of the
handler uncaught. -/
theorem reloadHandler_behavior (loadRes applyRes : Except String Unit) :
    (reloadHandler loadRes applyRes).1 = (match loadRes with
      | Except.ok _ => ["loadFromDb", "applyFlags"]
      | Except.error _ => ["loadFromDb"]) ∧
    (reloadHandler loadRes applyRes).2 = (match loadRes with
      | Except.ok _ => applyRes
      | Except.error e => Except.error e) := by
  cases loadRes <;> cases applyRes <;> simp [reloadHandler]

theorem setField_idem (fs : List (String × Json)) (k : String) (v : Json) :
    setField (setField fs k v) k v = setField fs k v := by
  induction fs with
  | nil => simp [setField]
  | cons p rest ih =>
    obtain ⟨k', v'⟩ := p
    by_cases hk : k' = k
    · simp [setField, hk]
    · simp [setField, hk, ih]

theorem lookupField_setField_self (fs : List (String × Json)) (k : String)
    (v : Json) : lookupField (setField fs k v) k = some v := by
  induction fs with
  | nil => simp [setField, lookupField]
  | cons p rest ih =>
    obtain ⟨k', v'⟩ := p
    by_cases hk : k' = k
    · simp [setField, hk, lookupField]
    · simp [setField, hk, lookupField, ih]

theorem lookupField_setField_other (fs : List (String × Json)) (k : String)
    (v : Json) (k' : String) (h : k ≠ k') :
    lookupField (setField fs k v) k' = lookupField fs k' := by
  induction fs with
  | nil => simp [setField, lookupField, h]
  | cons p rest ih =>
    obtain ⟨k'', v''⟩ := p
    by_cases hk : k'' = k
    · simp [setField, hk, lookupField, h]
    · simp [setField, hk, lookupField, ih]

theorem Json.set_idem (j : Json) (k : String) (v : Json) :
    (j.set k v).set k v = j.set k v := by
  cases j <;> simp [Json.set, setField_idem]

/-- Claim C1, counterexample: when a key holds a mapping in both the
base document and the static defaults, the merged snapshot's value at
that key is the recursive merge, not the base document's value alone, so
the claim as stated is false on the code. -/
theorem init_merge_base_wins_counterexample :
    Json.get (defaultsDeep (Json.obj [("a", Json.obj [("x", Json.num 1)])])
        (Json.obj [("a", Json.obj [("x", Json.num 2), ("y", Json.num 3)])]))
      "a" = some (Json.obj [("x", Json.num 1), ("y", Json.num 3)]) ∧
    Json.get (Json.obj [("a", Json.obj [("x", Json.num 1)])]) "a" =
      some (Json.obj [("x", Json.num 1)]) ∧
    Json.obj [("x", Json.num 1), ("y", Json.num 3)] ≠
      Json.obj [("x", Json.num 1)] := by
  refine ⟨?_, ?_, ?_⟩
  · simp [defaultsDeep, mergeDst, lookupField, Json.get]
  · simp [Json.get, lookupField]
  · simp

/-- Claim C1, amended: in the startup merge defaultsDeep(base,
defaults), every key present in both documents maps to the recursive
merge of the two values, which equals the base document's value whenever
the two values are not both mappings; every key present only in the
defaults keeps the default's value; and every key of the defaults
document is present in the result. -/
theorem init_defaultsDeep_amended (dfs sfs : List (String × Json))
    (k : String) :
    (∀ dv sv, lookupField dfs k = some dv → lookupField sfs k = some sv →
      Json.get (defaultsDeep (Json.obj dfs) (Json.obj sfs)) k =
        some (defaultsDeep dv sv) ∧
      ((dv.isObj = false ∨ sv.isObj = false) → defaultsDeep dv sv = dv)) ∧
    (lookupField dfs k = none → ∀ sv, lookupField sfs k = some sv →
      Json.get (defaultsDeep (Json.obj dfs) (Json.obj sfs)) k = some sv) ∧
    ((lookupField sfs k).isSome = true →
      (Json.get (defaultsDeep (Json.obj dfs) (Json.obj sfs)) k).isSome =
        true) := by
  have hdd : Json.get (defaultsDeep (Json.obj dfs) (Json.obj sfs)) k =
      lookupField (mergeDst dfs sfs ++
        sfs.filter (fun q => (lookupField dfs q.1).isNone)) k := by
    simp [defaultsDeep, Json.get]
  have h1 : ∀ dv sv, lookupField dfs k = some dv →
      lookupField sfs k = some sv →
      Json.get (defaultsDeep (Json.obj dfs) (Json.obj sfs)) k =
        some (defaultsDeep dv sv) := by
    intro dv sv hd hs
    rw [hdd]
    apply lookupField_append_of_some
    rw [lookupField_mergeDst, hd]
    simp [hs]
  have h2 : lookupField dfs k = none → ∀ sv, lookupField sfs k = some sv →
      Json.get (defaultsDeep (Json.obj dfs) (Json.obj sfs)) k = some sv := by
    intro hd sv hs
    rw [hdd, lookupField_append_of_none _ _ _
        (by rw [lookupField_mergeDst, hd]; simp),
      lookupField_filter_of_none _ _ _ hd, hs]
  refine ⟨fun dv sv hd hs => ⟨h1 dv sv hd hs, ?_⟩, h2, ?_⟩
  · intro hobj
    cases dv <;> cases sv <;>
      first
        | (exfalso; simp [Json.isObj] at hobj; done)
        | simp [defaultsDeep]
  · intro hs
    rw [Option.isSome_iff_exists] at hs
    obtain ⟨sv, hsv⟩ := hs
    cases hd : lookupField dfs k with
    | some dv => rw [h1 dv sv hd hsv]; rfl
    | none => rw [h2 hd sv hsv]; rfl

/-- Claim C1, witness: on concrete documents the base file's scalar
port wins over the defaults' port. -/
theorem init_defaultsDeep_amended_witness :
    Json.get (defaultsDeep (Json.obj [("port", Json.num 3000)])
      (Json.obj [("port", Json.num 80), ("title", Json.str "Wiki")]))
      "port" = some (Json.num 3000) := by
  have h := (init_defaultsDeep_amended [("port", Json.num 3000)]
    [("port", Json.num 80), ("title", Json.str "Wiki")] "port").1
    (Json.num 3000) (Json.num 80) (by simp [lookupField])
    (by simp [lookupField])
  rw [h.1, h.2 (Or.inl rfl)]

/-- Claim C4: for every store content and every in-memory snapshot,
running loadFromDb twice with no intervening store write yields the same
snapshot as running it once (reload is idempotent). -/
theorem loadFromDb_idem (conf : Option Json) (config : Json)
    (h : ∀ c, conf = some c → c.wf = true) :
    loadFromDb conf (loadFromDb conf config) = loadFromDb conf config := by
  cases conf with
  | none =>
      simp only [loadFromDb]
      exact Json.set_idem config "setup" (Json.bool true)
  | some c =>
      by_cases hc : jsTruthy c
      · simp only [loadFromDb, hc, if_pos]
        exact defaultsDeep_idem c config (h c rfl)
      · simp only [loadFromDb, hc, if_neg, Bool.false_eq_true,
          not_false_eq_true]
        exact Json.set_idem config "setup" (Json.bool true)

/-- Claim C4, witness: idempotence at a concrete store document and
snapshot. -/
theorem loadFromDb_idem_witness :
    loadFromDb (some (Json.obj [("port", Json.num 9000)]))
      (loadFromDb (some (Json.obj [("port", Json.num 9000)]))
        (Json.obj [("port", Json.num 80), ("title", Json.str "W")])) =
    loadFromDb (some (Json.obj [("port", Json.num 9000)]))
      (Json.obj [("port", Json.num 80), ("title", Json.str "W")]) :=
  loadFromDb_idem _ _ (fun c hc => by
    cases hc
    simp [Json.wf, fieldsWf, lookupField])

/-- Claim C5: when the store returns no usable data, loadFromDb sets
the setup flag to true and leaves every other field of the snapshot
unchanged. -/
theorem loadFromDb_empty_setup (fs : List (String × Json))
    (conf : Option Json)
    (hconf : conf = none ∨ ∃ c, conf = some c ∧ jsTruthy c = false) :
    Json.get (loadFromDb conf (Json.obj fs)) "setup" =
      some (Json.bool true) ∧
    ∀ k, k ≠ "setup" →
      Json.get (loadFromDb conf (Json.obj fs)) k =
        Json.get (Json.obj fs) k := by
  have hl : loadFromDb conf (Json.obj fs) =
      (Json.obj fs).set "setup" (Json.bool true) := by
    rcases hconf with h | ⟨c, hc, htr⟩
    · rw [h]; rfl
    · rw [hc]; simp [loadFromDb, htr]
  rw [hl]
  constructor
  · simp [Json.set, Json.get, lookupField_setField_self]
  · intro k hk
    simp [Json.set, Json.get,
      lookupField_setField_other fs "setup" (Json.bool true) k (Ne.symm hk)]

/-- Claim C5, witness: an empty store sets setup on a concrete
snapshot and leaves its port field unchanged. -/
theorem loadFromDb_empty_setup_witness :
    Json.get (loadFromDb none (Json.obj [("port", Json.num 80)])) "setup" =
      some (Json.bool true) ∧
    Json.get (loadFromDb none (Json.obj [("port", Json.num 80)])) "port" =
      Json.get (Json.obj [("port", Json.num 80)]) "port" :=
  ⟨(loadFromDb_empty_setup [("port", Json.num 80)] none (Or.inl rfl)).1,
   (loadFromDb_empty_setup [("port", Json.num 80)] none (Or.inl rfl)).2
     "port" (by decide)⟩

theorem saveKeysLoop_all_ok (config : Json) (failsAt : String → Bool) :
    ∀ (keys : List String) (st : List (String × Json)),
    (∀ j ∈ keys, failsAt j = false) →
    saveKeysLoop config failsAt keys st = (true, writeAll config st keys) := by
  intro keys
  induction keys with
  | nil => intro st _; simp [saveKeysLoop, writeAll]
  | cons k rest ih =>
    intro st h
    have hk : failsAt k = false := h k (by simp)
    simp only [saveKeysLoop, hk, Bool.false_eq_true, if_false]
    rw [ih _ (fun j hj => h j (List.mem_cons_of_mem k hj))]
    simp [writeAll]

theorem saveKeysLoop_result_iff (config : Json) (failsAt : String → Bool) :
    ∀ (keys : List String) (st : List (String × Json)),
    ((saveKeysLoop config failsAt keys st).1 = true ↔
      ∀ j ∈ keys, failsAt j = false) := by
  intro keys
  induction keys with
  | nil => intro st; simp [saveKeysLoop]
  | cons k rest ih =>
    intro st
    cases hk : failsAt k with
    | true => simp [saveKeysLoop, hk]
    | false => simp [saveKeysLoop, hk, ih]

theorem saveKeysLoop_abort (config : Json) (failsAt : String → Bool) :
    ∀ (ks₁ : List String) (k : String) (ks₂ : List String)
      (st : List (String × Json)),
    (∀ j ∈ ks₁, failsAt j = false) → failsAt k = true →
    saveKeysLoop config failsAt (ks₁ ++ k :: ks₂) st =
      (false, writeAll config st ks₁) := by
  intro ks₁
  induction ks₁ with
  | nil => intro k ks₂ st _ hk; simp [saveKeysLoop, hk, writeAll]
  | cons j rest ih =>
    intro k ks₂ st h hk
    have hj : failsAt j = false := h j (by simp)
    simp only [List.cons_append, saveKeysLoop, hj, Bool.false_eq_true,
      if_false, List.append_eq]
    rw [ih k ks₂ _ (fun i hi => h i (List.mem_cons_of_mem j hi)) hk]
    simp [writeAll]

/-- Claim C3: saveToDb returns true exactly when every key was
written without error; the reloadConfig event is emitted exactly when
the call succeeded and propagate is set; and the first failing key
aborts the remaining writes, leaving the store with only the writes of
the keys before it and making the call return false with no event. -/
theorem saveToDb_contract (config : Json) (failsAt : String → Bool)
    (keys : List String) (propagate : Bool) (st : List (String × Json)) :
    ((saveToDb config failsAt keys propagate st).result = true ↔
      ∀ j ∈ keys, failsAt j = false) ∧
    ((saveToDb config failsAt keys propagate st).events =
      if (saveToDb config failsAt keys propagate st).result && propagate
      then ["reloadConfig"] else []) ∧
    (∀ ks₁ k ks₂, keys = ks₁ ++ k :: ks₂ →
      (∀ j ∈ ks₁, failsAt j = false) → failsAt k = true →
      (saveToDb config failsAt keys propagate st).result = false ∧
      (saveToDb config failsAt keys propagate st).store =
        writeAll config st ks₁) := by
  refine ⟨?_, ?_, ?_⟩
  · rw [← saveKeysLoop_result_iff config failsAt keys st]
    unfold saveToDb
    cases h : saveKeysLoop config failsAt keys st with
    | mk ok st' => cases ok <;> simp
  · unfold saveToDb
    cases h : saveKeysLoop config failsAt keys st with
    | mk ok st' => cases ok <;> cases propagate <;> simp
  · intro ks₁ k ks₂ hkeys h1 hk
    subst hkeys
    unfold saveToDb
    rw [saveKeysLoop_abort config failsAt ks₁ k ks₂ st h1 hk]
    simp

/-- Claim C3, witness: with the store failing on db.host, saving
port, db.host, title returns false, persists only port, and emits
nothing. -/
theorem saveToDb_contract_witness :
    (saveToDb (Json.obj [("port", Json.num 9000)])
      (fun k => k = "db.host") ["port", "db.host", "title"] true
      []).result = false ∧
    (saveToDb (Json.obj [("port", Json.num 9000)])
      (fun k => k = "db.host") ["port", "db.host", "title"] true
      []).store =
      writeAll (Json.obj [("port", Json.num 9000)]) [] ["port"] ∧
    (saveToDb (Json.obj [("port", Json.num 9000)])
      (fun k => k = "db.host") ["port", "db.host", "title"] true
      []).events = [] := by
  have h := saveToDb_contract (Json.obj [("port", Json.num 9000)])
    (fun k => decide (k = "db.host")) ["port", "db.host", "title"] true []
  have h3 := h.2.2 ["port"] "db.host" ["title"] rfl (by decide) (by decide)
  refine ⟨h3.1, h3.2, ?_⟩
  rw [h.2.1, h3.1]
  simp

theorem wrapValue_truthy (v : Json) : jsTruthy (wrapValue v) = true := by
  cases v <;> simp [wrapValue, Json.isPlainObject, jsTruthy]

theorem lookupField_upsertRow_self (st : List (String × Json)) (k : String)
    (v : Json) (hv : jsTruthy v = true) :
    lookupField (upsertRow st k v) k = some v := by
  unfold upsertRow
  by_cases h : (lookupField st k).isSome
  · simp [h, lookupField_setField_self]
  · rw [if_neg h, if_pos hv,
      lookupField_append_of_none _ _ _ (Option.not_isSome_iff_eq_none.mp h)]
    simp [lookupField]

theorem lookupField_upsertRow_other (st : List (String × Json)) (k : String)
    (v : Json) (k' : String) (h : k ≠ k') :
    lookupField (upsertRow st k v) k' = lookupField st k' := by
  unfold upsertRow
  by_cases h1 : (lookupField st k).isSome
  · simp [h1, lookupField_setField_other st k v k' h]
  · rw [if_neg h1]
    by_cases h2 : jsTruthy v
    · rw [if_pos h2]
      cases hl : lookupField st k' with
      | some w => rw [lookupField_append_of_some _ _ _ _ hl]
      | none =>
          rw [lookupField_append_of_none _ _ _ hl]
          simp [lookupField, h]
    · rw [if_neg h2]

theorem lookupField_writeAll_not_mem (config : Json) :
    ∀ (ks : List String) (st : List (String × Json)) (k : String),
    k ∉ ks → lookupField (writeAll config st ks) k = lookupField st k := by
  intro ks
  induction ks with
  | nil => intro st k _; simp [writeAll]
  | cons j rest ih =>
    intro st k hk
    have hkj : j ≠ k := fun h => hk (h ▸ List.mem_cons_self j rest)
    have hkr : k ∉ rest := fun h => hk (List.mem_cons_of_mem j h)
    simp only [writeAll, List.foldl_cons]
    rw [show List.foldl
        (fun s i => upsertRow s i (wrapValue (lodashGet config i)))
        (upsertRow st j (wrapValue (lodashGet config j))) rest =
      writeAll config (upsertRow st j (wrapValue (lodashGet config j))) rest
      from rfl]
    rw [ih _ k hkr, lookupField_upsertRow_other _ _ _ _ hkj]

theorem lookupField_writeAll_mem (config : Json) :
    ∀ (ks : List String) (st : List (String × Json)) (k : String),
    k ∈ ks → lookupField (writeAll config st ks) k =
      some (wrapValue (lodashGet config k)) := by
  intro ks
  induction ks with
  | nil => intro st k h; simp at h
  | cons j rest ih =>
    intro st k hk
    simp only [writeAll, List.foldl_cons]
    rw [show List.foldl
        (fun s i => upsertRow s i (wrapValue (lodashGet config i)))
        (upsertRow st j (wrapValue (lodashGet config j))) rest =
      writeAll config (upsertRow st j (wrapValue (lodashGet config j))) rest
      from rfl]
    by_cases hr : k ∈ rest
    · exact ih _ k hr
    · have hjk : j = k := by
        rcases List.mem_cons.mp hk with h | h
        · exact h.symm
        · exact absurd h hr
      subst hjk
      rw [lookupField_writeAll_not_mem config rest _ j hr,
        lookupField_upsertRow_self _ _ _ (wrapValue_truthy _)]

/-- Claim C6: every key a successful saveToDb run persists is stored
as the snapshot value at that dotted path when that value is a plain
record, and wrapped as a record under v otherwise; a missing path reads
as null (and is hence wrapped). -/
theorem saveToDb_wrapping (config : Json) (failsAt : String → Bool)
    (keys : List String) (propagate : Bool) (st : List (String × Json))
    (hok : ∀ j ∈ keys, failsAt j = false) (k : String) (hk : k ∈ keys) :
    lookupField (saveToDb config failsAt keys propagate st).store k =
      some (wrapValue (lodashGet config k)) ∧
    ((lodashGet config k).isPlainObject = true →
      wrapValue (lodashGet config k) = lodashGet config k) ∧
    ((lodashGet config k).isPlainObject = false →
      wrapValue (lodashGet config k) = Json.obj [("v", lodashGet config k)]) ∧
    (getAtPath config (splitPath k) = none →
      lodashGet config k = Json.null) := by
  refine ⟨?_, ?_, ?_, ?_⟩
  · unfold saveToDb
    rw [saveKeysLoop_all_ok config failsAt keys st hok]
    exact lookupField_writeAll_mem config keys st k hk
  · intro h; simp [wrapValue, h]
  · intro h; simp [wrapValue, h]
  · intro h; simp [lodashGet, h]

/-- Claim C6, witness: saving the scalar port 9000 persists the
wrapped record with v mapped to 9000. -/
theorem saveToDb_wrapping_witness :
    lookupField (saveToDb
      (Json.obj [("port", Json.num 9000), ("db", Json.obj [("host", Json.str "x")])])
      (fun _ => false) ["port", "db"] true []).store "port" =
      some (Json.obj [("v", Json.num 9000)]) := by
  have h := saveToDb_wrapping
    (Json.obj [("port", Json.num 9000), ("db", Json.obj [("host", Json.str "x")])])
    (fun _ => false) ["port", "db"] true [] (by simp) "port" (by simp)
  rw [h.1, h.2.2.1 (by decide)]
  rfl

/-- Claim C7, witness: a postgres URL with sslmode=disable yields
db.ssl = false on a snapshot whose prior ssl was true. -/
theorem applyDatabaseUrlEnv_sslmode_witness :
    ((applyDatabaseUrlEnv ⟨"mysql", "h0", 3306, "u0", "p0", "d0", "s0", true⟩
      ⟨"postgres:", "db.example.com", "5433", "alice", "secret", "/wiki",
        [("sslmode", "disable")]⟩).2).ssl = false := by
  have h := (applyDatabaseUrlEnv_sslmode
    ⟨"mysql", "h0", 3306, "u0", "p0", "d0", "s0", true⟩
    ⟨"postgres:", "db.example.com", "5433", "alice", "secret", "/wiki",
      [("sslmode", "disable")]⟩ "postgres" (by decide)).1 "disable"
    (by decide)
  rw [h]
  decide

/-- Claim C8, witness: a sqlite URL with no query string updates the
storage path and leaves host and ssl at their prior values. -/
theorem applyDatabaseUrlEnv_sqlite_witness :
    ((applyDatabaseUrlEnv
      ⟨"postgres", "h0", 5432, "u0", "p0", "d0", "s0", true⟩
      ⟨"sqlite:", "", "", "", "", "/data/wiki.sqlite", []⟩).2).host = "h0" ∧
    ((applyDatabaseUrlEnv
      ⟨"postgres", "h0", 5432, "u0", "p0", "d0", "s0", true⟩
      ⟨"sqlite:", "", "", "", "", "/data/wiki.sqlite", []⟩).2).storage =
      "/data/wiki.sqlite" ∧
    ((applyDatabaseUrlEnv
      ⟨"postgres", "h0", 5432, "u0", "p0", "d0", "s0", true⟩
      ⟨"sqlite:", "", "", "", "", "/data/wiki.sqlite", []⟩).2).ssl = true := by
  obtain ⟨ha, hhost, hport, huser, hpass, hdb, htype, hst1, hst2, hssl1,
      hssl2⟩ :=
    applyDatabaseUrlEnv_sqlite
      ⟨"postgres", "h0", 5432, "u0", "p0", "d0", "s0", true⟩
      ⟨"sqlite:", "", "", "", "", "/data/wiki.sqlite", []⟩ rfl
  exact ⟨hhost, hst1 (by decide), hssl1 rfl⟩
